import Mathlib

/-!
Shallow embedding of the cloum CLI (a Kubernetes cluster-connection manager
for GCP/AWS/Azure) for checking its natural-language specification.

The TypeScript source is embedded as executable Lean definitions:
pure logic becomes Lean functions, subprocess results become explicit
CommandResult inputs, thrown exceptions become Except, and the JSON config
file is modelled at the value level (JSON.parse / JSON.stringify are JS
builtins, external to this repository, and are treated as exact inverses).
JavaScript string helpers (trim, split, includes, toLowerCase) are embedded
as structurally recursive functions on character lists so that concrete
instances reduce inside the kernel.
-/

/-- Whitespace recognised by the embedding of JavaScript String.prototype.trim
(the patterns handled by this program are ASCII). -/
def isJsSpace (c : Char) : Bool :=
  c == ' ' || c == '\t' || c == '\n' || c == '\r'

/-- Drop leading and trailing whitespace from a character list. -/
def trimChars (l : List Char) : List Char :=
  ((l.dropWhile isJsSpace).reverse.dropWhile isJsSpace).reverse

/-- Embedding of JavaScript s.trim(). -/
def jsTrim (s : String) : String :=
  ⟨trimChars s.data⟩

/-- Embedding of JavaScript s.split(sep) for a single-character separator:
splitting never yields the empty list (splitting the empty string yields
one empty piece). -/
def splitOnChar (sep : Char) : List Char → List (List Char)
  | [] => [[]]
  | x :: xs =>
    match splitOnChar sep xs with
    | [] => [[x]]
    | h :: t => if x == sep then [] :: h :: t else (x :: h) :: t

/-- Does pat occur as a contiguous run inside hay?  Embedding of
JavaScript s.includes(pat). -/
def infixOf (pat : List Char) : List Char → Bool
  | [] => pat.isPrefixOf []
  | x :: t => pat.isPrefixOf (x :: t) || infixOf pat t

/-- String-level wrapper around infixOf. -/
def strContainsB (s pat : String) : Bool :=
  infixOf pat.data s.data

/-- Embedding of JavaScript s.toLowerCase() for the ASCII range. -/
def lowerStr (s : String) : String :=
  ⟨s.data.map Char.toLower⟩

/-- Embedding of JavaScript array.join(", ") as used for the list of known
cluster names in loader.ts and remove.ts. -/
def joinComma : List String → String
  | [] => ""
  | [x] => x
  | x :: y :: rest => x ++ ", " ++ joinComma (y :: rest)

/-- Embedding of extractFirstLine (src/utils/colors.ts part, lines 192-195):
trim the stderr, split on newlines, take the first piece, and substitute
"Unknown error" when that piece is empty (JS falsiness of ""). -/
def extractFirstLine (stderr : String) : String :=
  let lines := splitOnChar '\n' (jsTrim stderr).data
  let first : String := ⟨lines.headD []⟩
  if first == "" then "Unknown error" else first

/-- Modelled from the spec words of claim C4 only, for comparison with the
source function: the first line of the raw (untrimmed) stderr text. -/
def firstLineRawSpec (stderr : String) : String :=
  ⟨(splitOnChar '\n' stderr.data).headD []⟩

/-! ## Data model (src/config/types.ts) -/

/-- Supported cloud providers (types.ts). -/
inductive Provider where
  | gcp
  | aws
  | azure
deriving DecidableEq, Repr

/-- The tagged union GcpCluster | AwsCluster | AzureCluster (types.ts):
each variant carries name, region, clusterName plus its own extra fields;
optional fields are Option String and are absent from the stored JSON
object when they are none. -/
inductive ClusterConfig where
  | gcp (name region clusterName project : String) (account : Option String)
  | aws (name region clusterName : String) (profile roleArn : Option String)
  | azure (name region clusterName resourceGroup : String)
      (subscription : Option String)
deriving DecidableEq, Repr

/-- The unique key of a record: the name field of whichever variant. -/
def ClusterConfig.name : ClusterConfig → String
  | .gcp n _ _ _ _ => n
  | .aws n _ _ _ _ => n
  | .azure n _ _ _ _ => n

/-- Result of a shell command execution (types.ts). -/
structure CommandResult where
  exitCode : Nat
  stdout : String
  stderr : String
deriving DecidableEq, Repr

/-- Auth status for a single provider (types.ts). -/
structure ProviderStatus where
  provider : Provider
  isAuthenticated : Bool
  identity : Option String
  details : Option String
deriving DecidableEq, Repr

/-- Structured error with actionable hint (errors.ts). -/
structure ParsedError where
  message : String
  hint : Option String
  shouldRetry : Option Bool
deriving DecidableEq, Repr

/-! ## JSON values

The config file and import files are JSON.  JSON.parse and JSON.stringify
are JavaScript builtins (out of scope per the spec), so the embedding works
with parsed values directly: a file holds a JsonVal, and the serialisation
layer is treated as the exact inverse pair it implements. -/

/-- Parsed JSON values. -/
inductive JsonVal where
  | null
  | bool (b : Bool)
  | num (n : Int)
  | str (s : String)
  | arr (elems : List JsonVal)
  | obj (fields : List (String × JsonVal))

/-- Field access on a parsed JSON object (undefined becomes none); reading a
property of a non-object value used by this program likewise yields
undefined. -/
def getField : JsonVal → String → Option JsonVal
  | .obj fields, key => (fields.find? (fun p => p.1 == key)).map (·.2)
  | _, _ => none

/-- A field that is present and holds a truthy (nonempty) string, matching
the repeated JS pattern (entry.f && typeof entry.f === "string"). -/
def getTruthyStr (j : JsonVal) (key : String) : Option String :=
  match getField j key with
  | some (.str s) => if s == "" then none else some s
  | _ => none

/-! ## Config Store (src/config/loader.ts) -/

/-- The byte content written by ensureConfigFile when the config file does
not yet exist (loader.ts lines 9-16): JSON.stringify({clusters: []}, null, 2)
with no trailing newline.  An existing file is left untouched. -/
def ensureConfigFile : Option String → String
  | some bytes => bytes
  | none => "\x7b\n  \"clusters\": []\n\x7d"

/-- How JSON.stringify views one stored record: an object with the fields in
construction order, optional fields omitted when absent (buildCluster in the
add command and validateCluster in the import command both construct the
record this way). -/
def encodeCluster : ClusterConfig → JsonVal
  | .gcp n r cn proj acct =>
    .obj ([("name", .str n), ("provider", .str "gcp"), ("region", .str r),
           ("clusterName", .str cn), ("project", .str proj)] ++
          (match acct with
           | some a => [("account", JsonVal.str a)]
           | none => []))
  | .aws n r cn prof role =>
    .obj ([("name", .str n), ("provider", .str "aws"), ("region", .str r),
           ("clusterName", .str cn)] ++
          (match prof with
           | some p => [("profile", JsonVal.str p)]
           | none => []) ++
          (match role with
           | some ra => [("roleArn", JsonVal.str ra)]
           | none => []))
  | .azure n r cn rg sub =>
    .obj ([("name", .str n), ("provider", .str "azure"), ("region", .str r),
           ("clusterName", .str cn), ("resourceGroup", .str rg)] ++
          (match sub with
           | some s => [("subscription", JsonVal.str s)]
           | none => []))

/-- A field that is present and holds a string value, whatever it is. -/
def getStr (j : JsonVal) (key : String) : Option String :=
  match getField j key with
  | some (.str s) => some s
  | _ => none

/-- Field-by-field reading of a stored record back out of its JSON object;
used to state that a record round-trips with identical field values. -/
def decodeCluster (j : JsonVal) : Option ClusterConfig := do
  let n ← getStr j "name"
  let r ← getStr j "region"
  let cn ← getStr j "clusterName"
  match getField j "provider" with
  | some (.str "gcp") => do
    let proj ← getStr j "project"
    pure (.gcp n r cn proj (getStr j "account"))
  | some (.str "aws") =>
    pure (.aws n r cn (getStr j "profile") (getStr j "roleArn"))
  | some (.str "azure") => do
    let rg ← getStr j "resourceGroup"
    pure (.azure n r cn rg (getStr j "subscription"))
  | _ => none

/-- saveClusters (loader.ts lines 27-31): the value serialised to the file is
the object with a single clusters field holding the records array.  The
pretty-printing with trailing newline is performed by the external
JSON.stringify builtin on exactly this value. -/
def saveClusters (records : List ClusterConfig) : JsonVal :=
  .obj [("clusters", .arr (records.map encodeCluster))]

/-- loadClusters (loader.ts lines 19-24): return the clusters field of the
parsed file, replacing an absent (undefined) or null field by the empty
array, as data.clusters ?? [] does. -/
def loadClusters (file : JsonVal) : JsonVal :=
  match getField file "clusters" with
  | none => .arr []
  | some .null => .arr []
  | some v => v

/-! ## add command (src/commands/add.ts, embedded from unnamed part_004) -/

/-- CLI options accepted by the add command (AddOptions, add.ts). -/
structure AddOptions where
  name : String
  region : String
  clusterName : String
  project : Option String
  account : Option String
  profile : Option String
  roleArn : Option String
  resourceGroup : Option String
  subscription : Option String
deriving DecidableEq, Repr

/-- requireOption (add.ts lines 26-29): a missing or empty (falsy) flag value
throws. -/
def requireOption (value : Option String) (flag : String) :
    Except String String :=
  match value with
  | some s =>
    if s == "" then .error ("--" ++ flag ++ " is required for this provider")
    else .ok s
  | none => .error ("--" ++ flag ++ " is required for this provider")

/-- The conditional-spread pattern ...(opts.f && { f: opts.f }): the field is
kept only when truthy (present and nonempty). -/
def optTruthy : Option String → Option String
  | some s => if s == "" then none else some s
  | none => none

/-- buildCluster (add.ts lines 32-72). -/
def buildCluster (provider : Provider) (opts : AddOptions) :
    Except String ClusterConfig :=
  match provider with
  | .gcp => do
    let proj ← requireOption opts.project "project"
    pure (.gcp opts.name opts.region opts.clusterName proj
      (optTruthy opts.account))
  | .aws =>
    pure (.aws opts.name opts.region opts.clusterName
      (optTruthy opts.profile) (optTruthy opts.roleArn))
  | .azure => do
    let rg ← requireOption opts.resourceGroup "resource-group"
    pure (.azure opts.name opts.region opts.clusterName rg
      (optTruthy opts.subscription))

/-- addCommand (add.ts lines 78-92) over the loaded clusters list: an error
means the command threw and saveClusters was never called; an ok result is
the list passed to saveClusters. -/
def addCommand (clusters : List ClusterConfig) (provider : Provider)
    (opts : AddOptions) : Except String (List ClusterConfig) :=
  if clusters.any (fun c => c.name == opts.name) then
    .error ("Cluster \"" ++ opts.name ++
      "\" already exists. Remove it first or choose a different name.")
  else
    match buildCluster provider opts with
    | .error e => .error e
    | .ok newCluster => .ok (clusters ++ [newCluster])

/-- The stored list after an add invocation: the saved list on success, the
untouched previous list when the command threw before saving. -/
def storeAfterAdd (clusters : List ClusterConfig) (provider : Provider)
    (opts : AddOptions) : List ClusterConfig :=
  match addCommand clusters provider opts with
  | .ok saved => saved
  | .error _ => clusters

/-! ## remove command (src/commands/remove.ts) -/

/-- removeCommand (remove.ts lines 7-17) over the loaded clusters list: an
error means the command threw before saving; an ok result is the filtered
list passed to saveClusters. -/
def removeCommand (clusters : List ClusterConfig) (name : String) :
    Except String (List ClusterConfig) :=
  if clusters.findIdx? (fun c => c.name == name) = none then
    .error ("Cluster \"" ++ name ++ "\" not found. Available: " ++
      (let names := joinComma (clusters.map (·.name))
       if names == "" then "(none configured)" else names))
  else
    .ok (clusters.filter (fun c => ¬ (c.name == name)))

/-- The config file bytes after a remove invocation, for an arbitrary
serialisation render of the saved list: ensureConfigFile ran first (a
missing file is created), and the file is rewritten only when the command
reached saveClusters. -/
def fileAfterRemove (render : List ClusterConfig → String)
    (file : Option String) (clusters : List ClusterConfig) (name : String) :
    String :=
  match removeCommand clusters name with
  | .error _ => ensureConfigFile file
  | .ok updated => render updated

/-! ## import command (src/commands/import.ts, embedded from unnamed
part_002) -/

/-- validateCluster (import.ts lines 11-94): check one parsed entry.  A
required field must be a truthy (nonempty) string; an optional field is kept
only when it is a truthy string.  For AWS the source checks profile first
and returns at once, so a roleArn on a profiled entry is dropped. -/
def validateCluster (entry : JsonVal) (index : Nat) :
    Except String ClusterConfig :=
  match getTruthyStr entry "name" with
  | none =>
    .error ("Cluster at index " ++ toString index ++
      ": missing or invalid \"name\"")
  | some name =>
    match getTruthyStr entry "provider" with
    | some "gcp" => validRest name "gcp"
    | some "aws" => validRest name "aws"
    | some "azure" => validRest name "azure"
    | _ =>
      .error ("Cluster \"" ++ name ++
        "\": missing or invalid \"provider\" (must be gcp, aws, or azure)")
where
  validRest (name providerStr : String) : Except String ClusterConfig :=
    match getTruthyStr entry "region" with
    | none =>
      .error ("Cluster \"" ++ name ++ "\": missing or invalid \"region\"")
    | some region =>
      match getTruthyStr entry "clusterName" with
      | none =>
        .error ("Cluster \"" ++ name ++
          "\": missing or invalid \"clusterName\"")
      | some clusterName =>
        if providerStr == "gcp" then
          match getTruthyStr entry "project" with
          | none =>
            .error ("Cluster \"" ++ name ++
              "\": missing \"project\" for GCP cluster")
          | some project =>
            .ok (.gcp name region clusterName project
              (getTruthyStr entry "account"))
        else if providerStr == "aws" then
          match getTruthyStr entry "profile" with
          | some profile => .ok (.aws name region clusterName (some profile) none)
          | none =>
            .ok (.aws name region clusterName none
              (getTruthyStr entry "roleArn"))
        else
          match getTruthyStr entry "resourceGroup" with
          | none =>
            .error ("Cluster \"" ++ name ++
              "\": missing \"resourceGroup\" for Azure cluster")
          | some rg =>
            .ok (.azure name region clusterName rg
              (getTruthyStr entry "subscription"))

/-- importCommand structure checks (import.ts lines 116-125): the parsed
data must be a truthy object (in JS an array is also typeof object) whose
clusters property is an array. -/
def parseEntries (data : JsonVal) : Except String (List JsonVal) :=
  match data with
  | .obj fields =>
    match getField (.obj fields) "clusters" with
    | some (.arr entries) => .ok entries
    | _ => .error "Invalid format: expected \"clusters\" array in JSON"
  | .arr _ => .error "Invalid format: expected \"clusters\" array in JSON"
  | _ => .error "Invalid format: expected JSON object with \"clusters\" array"

/-- importCommand validation loop (import.ts lines 127-136): each entry must
be a truthy object, then validateCluster runs on it. -/
def validateAll : List JsonVal → Nat → Except String (List ClusterConfig)
  | [], _ => .ok []
  | e :: rest, i =>
    let entryOk : Bool :=
      match e with
      | .obj _ => true
      | .arr _ => true
      | _ => false
    if entryOk then
      match validateCluster e i with
      | .error msg => .error msg
      | .ok v =>
        match validateAll rest (i + 1) with
        | .error msg => .error msg
        | .ok vs => .ok (v :: vs)
    else
      .error ("Invalid cluster at index " ++ toString i ++ ": expected object")

/-- importCommand merge loop (import.ts lines 142-153): walk the validated
records, skipping any whose name is already known and recording the name of
the new ones as it goes, so a repeated name inside the file is itself
skipped after its first occurrence.  Returns (toAdd, skipped). -/
def importLoop (knownNames : List String) :
    List ClusterConfig → List ClusterConfig × List String
  | [] => ([], [])
  | c :: rest =>
    if c.name ∈ knownNames then
      ((importLoop knownNames rest).1,
       c.name :: (importLoop knownNames rest).2)
    else
      (c :: (importLoop (c.name :: knownNames) rest).1,
       (importLoop (c.name :: knownNames) rest).2)

/-- importCommand (import.ts lines 100-169) over the parsed import file and
the loaded store: on success, the first component is the list passed to
saveClusters and the second the reported skipped names; an error means the
command threw before saving. -/
def importCommand (data : JsonVal) (existing : List ClusterConfig) :
    Except String (List ClusterConfig × List String) := do
  let entries ← parseEntries data
  let newClusters ← validateAll entries 0
  let (toAdd, skipped) := importLoop (existing.map (·.name)) newClusters
  pure (existing ++ toAdd, skipped)

/-! ## update command (src/commands/update.ts) -/

/-- Embedding of the JS expression Number(part) || 0 used on one
dot-separated version component (update.ts lines 134-138): a nonnegative
integer literal yields its value, anything unparsable is NaN and the || 0
turns it into 0, and a missing component (index past the end) is undefined
and likewise becomes 0 via headD below. -/
def jsNumPart (part : List Char) : Int :=
  if part ≠ [] ∧ part.all (·.isDigit) then
    (part.foldl (fun acc c => acc * 10 + (c.toNat - 48)) 0 : Nat)
  else 0

/-- The numeric components of a version string (update.ts line 134). -/
def partsOf (s : String) : List Int :=
  (splitOnChar '.' s.data).map jsNumPart

/-- Comparison of the exhausted left operand against the remaining right
components (the loop of compareVersions once aParts has run out: each aNum
is 0). -/
def cmpZeros : List Int → Int
  | [] => 0
  | b :: bs => if 0 > b then 1 else if 0 < b then -1 else cmpZeros bs

/-- The comparison loop of compareVersions (update.ts lines 136-142):
compare componentwise up to the longer length, treating a missing component
as 0; the first strict inequality decides, otherwise equal. -/
def cmpParts : List Int → List Int → Int
  | [], bs => cmpZeros bs
  | a :: as_, [] => if a > 0 then 1 else if a < 0 then -1 else cmpParts as_ []
  | a :: as_, b :: bs =>
    if a > b then 1 else if a < b then -1 else cmpParts as_ bs

/-- compareVersions (update.ts lines 133-143). -/
def compareVersions (a b : String) : Int :=
  cmpParts (partsOf a) (partsOf b)

/-- The three outcomes of the update decision in updateCommand. -/
inductive UpdateAction where
  | noUpdate
  | warnNewer
  | performUpdate
deriving DecidableEq, Repr

/-- The decision structure of updateCommand (update.ts lines 145-157) once
the latest release version is known: equal versions report up to date and
stop, a newer local version warns and stops, anything else proceeds to the
update, and force skips both early exits. -/
def updateDecision (force : Bool) (current latest : String) : UpdateAction :=
  let cmp := compareVersions current latest
  if ¬ force ∧ cmp = 0 then .noUpdate
  else if ¬ force ∧ cmp > 0 then .warnNewer
  else .performUpdate

/-! ## Error classifier, AWS part (src/utils/errors.ts, embedded from the
colors.ts part, lines 88-131) -/

/-- The SSO-expiry pattern group of parseAwsError (lines 92-94), tested
against the lowercased stderr. -/
def awsSsoPat (lower : String) : Bool :=
  strContainsB lower "the sso session associated with this profile has expired" ||
  strContainsB lower "sso session has expired" ||
  strContainsB lower "error validating provider"

/-- The invalid-profile pattern of parseAwsError (line 103). -/
def awsProfilePat (lower : String) : Bool :=
  strContainsB lower "profile" && strContainsB lower "does not exist"

/-- The access-denied pattern of parseAwsError (line 111). -/
def awsAccessPat (lower : String) : Bool :=
  strContainsB lower "access denied" || strContainsB lower "unauthorized"

/-- The cluster-not-found pattern of parseAwsError (line 119). -/
def awsClusterPat (lower : String) : Bool :=
  strContainsB lower "not found" && strContainsB lower "cluster"

/-- Does the stderr match any of the listed AWS patterns?  (The ordered
pattern tests of parseAwsError, lines 92-124.) -/
def awsMatchesAny (stderr : String) : Bool :=
  let lower := lowerStr stderr
  awsSsoPat lower || awsProfilePat lower || awsAccessPat lower ||
    awsClusterPat lower

/-- parseAwsError (errors.ts lines 88-131): first matching pattern wins,
otherwise fall through to the first line of the trimmed stderr with no
hint. -/
def parseAwsError (stderr : String) : ParsedError :=
  let lower := lowerStr stderr
  if awsSsoPat lower then
    ⟨"AWS SSO session expired",
     some "Run: aws sso login --profile PROFILE_NAME", some true⟩
  else if awsProfilePat lower then
    ⟨"AWS profile not found", some "Check your AWS config: ~/.aws/config",
     none⟩
  else if awsAccessPat lower then
    ⟨"AWS access denied",
     some "Verify your IAM permissions include eks:DescribeCluster and eks:AccessKubernetesApi",
     none⟩
  else if awsClusterPat lower then
    ⟨"EKS cluster not found",
     some "Verify cluster name and region. Run: aws eks list-clusters --region REGION",
     none⟩
  else
    ⟨extractFirstLine stderr, none, none⟩

/-! ## Provider status probes (src/providers/gcp.ts 153-185,
aws.ts 120-147, azure.ts 150-187)

Each status function wraps its subprocess calls in try/catch, so its
embedding is a total function into ProviderStatus: an Except.error input
stands for a subprocess spawn that threw (provider CLI not installed), and
an Except.ok input carries the captured CommandResult.  The second
parameter of the GCP and Azure probes is the result the follow-up
detail query would produce; it is only consulted on the authenticated
path, but a spawn failure there is caught by the same try/catch. -/

/-- statusGcp (gcp.ts lines 153-185). -/
def statusGcp (authList project : Except Unit CommandResult) :
    ProviderStatus :=
  match authList with
  | .error _ => ⟨.gcp, false, none, some "gcloud not installed"⟩
  | .ok result =>
    if result.exitCode ≠ 0 ∨ jsTrim result.stdout == "" then
      ⟨.gcp, false, none, none⟩
    else
      match project with
      | .error _ => ⟨.gcp, false, none, some "gcloud not installed"⟩
      | .ok proj =>
        ⟨.gcp, true, some (jsTrim result.stdout),
         if proj.exitCode = 0 ∧ ¬ (jsTrim proj.stdout == "") then
           some ("project: " ++ jsTrim proj.stdout)
         else none⟩

/-- statusAws (aws.ts lines 120-147); envProfile is process.env.AWS_PROFILE,
included in the details only when truthy. -/
def statusAws (identity : Except Unit CommandResult)
    (envProfile : Option String) : ProviderStatus :=
  match identity with
  | .error _ => ⟨.aws, false, none, some "aws CLI not installed"⟩
  | .ok result =>
    if result.exitCode ≠ 0 ∨ jsTrim result.stdout == "" then
      ⟨.aws, false, none, none⟩
    else
      ⟨.aws, true, some (jsTrim result.stdout),
       match envProfile with
       | some p => if p == "" then none else some ("profile: " ++ p)
       | none => none⟩

/-- statusAzure (azure.ts lines 150-187). -/
def statusAzure (accountShow subscription : Except Unit CommandResult) :
    ProviderStatus :=
  match accountShow with
  | .error _ => ⟨.azure, false, none, some "az CLI not installed"⟩
  | .ok result =>
    if result.exitCode ≠ 0 ∨ jsTrim result.stdout == "" then
      ⟨.azure, false, none, none⟩
    else
      match subscription with
      | .error _ => ⟨.azure, false, none, some "az CLI not installed"⟩
      | .ok sub =>
        ⟨.azure, true, some (jsTrim result.stdout),
         if sub.exitCode = 0 then
           some ("subscription: " ++ jsTrim sub.stdout)
         else none⟩

/-! ## Registry login operations (gcp.ts 203-219, aws.ts 164-207,
azure.ts 200-212, src/commands/registry.ts 64-91 and 154-156)

runCommand (shell.ts lines 7-15) spawns the subprocess with inherited
streams and returns exit code with EMPTY captured stdout/stderr, whatever
the subprocess actually printed; runCommandSilent captures both streams.
An interactive step is therefore embedded by its exit code alone, and a
silent step by a full CommandResult. -/

/-- The CommandResult produced by runCommand for an interactive subprocess
that exited with the given code (shell.ts line 14). -/
def runCommandRes (exitCode : Nat) : CommandResult :=
  ⟨exitCode, "", ""⟩

/-- registryGcp (gcp.ts lines 203-219): gcloud auth configure-docker runs
interactively, so the error text appends the always-empty captured
stderr. -/
def registryGcp (region project : String) (configureExit : Nat) :
    Except String Unit :=
  let result := runCommandRes configureExit
  if result.exitCode ≠ 0 then
    .error ("Registry login failed:\n" ++ result.stderr)
  else .ok ()

/-- registryAws (aws.ts lines 164-207): two silent steps (token fetch and
account-id resolution) whose stderr is captured, then the interactive
docker login reported by exit code alone. -/
def registryAws (tokenResult idResult : CommandResult) (dockerExit : Nat) :
    Except String Unit :=
  if tokenResult.exitCode ≠ 0 then
    .error ("Failed to get ECR token: " ++ tokenResult.stderr)
  else if idResult.exitCode ≠ 0 then
    .error ("Failed to resolve AWS account ID: " ++ idResult.stderr)
  else if dockerExit ≠ 0 then
    .error ("Docker login to ECR failed (exit " ++ toString dockerExit ++ ")")
  else .ok ()

/-- registryAzure (azure.ts lines 200-212): az acr login runs interactively,
so the error carries only the exit code. -/
def registryAzure (registryName : String) (acrExit : Nat) :
    Except String Unit :=
  let result := runCommandRes acrExit
  if result.exitCode ≠ 0 then
    .error ("ACR login failed (exit " ++ toString result.exitCode ++ ")")
  else .ok ()

/-- loginAzure (registry.ts lines 64-91): with no registry name it lists
registries and returns false; with one it calls registryAzure inside
try/catch, printing any error and returning false instead of rethrowing. -/
def loginAzureViaRegistry (registry : Option String) (acrExit : Nat) : Bool :=
  match registry with
  | none => false
  | some r =>
    match registryAzure r acrExit with
    | .error _ => false
    | .ok _ => true

/-- The azure branch of registryCommand (registry.ts lines 154-156): it
awaits loginAzure, whose catch swallows the step failure, so the command
itself completes without raising; the returned Bool is loginAzure's
success flag. -/
def registryCommandAzure (registry : Option String) (acrExit : Nat) :
    Except String Bool :=
  .ok (loginAzureViaRegistry registry acrExit)

/-! ## Helper lemmas -/

/-- infixOf decides List.IsInfix. -/
theorem infixOf_eq_true_iff (pat hay : List Char) :
    infixOf pat hay = true ↔ pat <:+: hay := by
  induction hay with
  | nil =>
    simp [infixOf, List.isPrefixOf_iff_prefix]
  | cons x t ih =>
    simp [infixOf, List.isPrefixOf_iff_prefix, ih, List.infix_cons_iff]

/-- strContainsB decides substring occurrence. -/
theorem strContainsB_eq_true_iff (s pat : String) :
    strContainsB s pat = true ↔ pat.data <:+: s.data :=
  infixOf_eq_true_iff pat.data s.data

/-- Substring occurrence survives prepending text. -/
theorem strContainsB_append_right (a b pat : String)
    (h : strContainsB b pat = true) : strContainsB (a ++ b) pat = true := by
  rw [strContainsB_eq_true_iff] at h ⊢
  rw [String.data_append]
  exact h.trans (List.suffix_append a.data b.data).isInfix

/-- Every member of a list occurs inside its comma join. -/
theorem joinComma_contains (l : List String) (x : String) (hx : x ∈ l) :
    strContainsB (joinComma l) x = true := by
  induction l with
  | nil => cases hx
  | cons a t ih =>
    cases t with
    | nil =>
      rw [List.mem_singleton] at hx
      subst hx
      rw [strContainsB_eq_true_iff]
      exact List.infix_refl x.data
    | cons b r =>
      have hjoin : joinComma (a :: b :: r) = (a ++ ", ") ++ joinComma (b :: r) :=
        rfl
      rcases List.mem_cons.mp hx with h | h
      · subst h
        rw [hjoin, strContainsB_eq_true_iff, String.data_append,
          String.data_append, List.append_assoc]
        exact (List.prefix_append x.data _).isInfix
      · rw [hjoin]
        exact strContainsB_append_right (a ++ ", ") _ x (ih h)

/-- Comparing against pure zero padding yields equality. -/
theorem cmpZeros_replicate (k : Nat) : cmpZeros (List.replicate k 0) = 0 := by
  induction k with
  | zero => rfl
  | succ n ih => simp [List.replicate_succ, cmpZeros, ih]

/-- Comparing pure zero padding against the exhausted side yields
equality. -/
theorem cmpParts_replicate_nil (k : Nat) :
    cmpParts (List.replicate k 0) [] = 0 := by
  induction k with
  | zero => rfl
  | succ n ih => simp [List.replicate_succ, cmpParts, ih]

/-- Zero padding on the right operand does not change the comparison. -/
theorem cmpParts_pad_right (p : List Int) (k : Nat) :
    cmpParts p (p ++ List.replicate k 0) = 0 := by
  induction p with
  | nil => simpa [cmpParts] using cmpZeros_replicate k
  | cons a as_ ih => simp [cmpParts, ih, lt_irrefl]

/-- Zero padding on the left operand does not change the comparison. -/
theorem cmpParts_pad_left (p : List Int) (k : Nat) :
    cmpParts (p ++ List.replicate k 0) p = 0 := by
  induction p with
  | nil => simpa [cmpParts] using cmpParts_replicate_nil k
  | cons a as_ ih => simp [cmpParts, ih, lt_irrefl]

/-! ## Claim theorems -/

/-- C6: the version comparison used by the update command yields 0 on
"1.2.0" vs "1.2.0" so no update is offered, -1 on "1.2.0" vs "1.3.0" so
the update proceeds, and 1 on "1.3.1" vs "1.3.0" so (when not forced) the
command warns and performs no update. -/
theorem claim_C6_version_comparison :
    compareVersions "1.2.0" "1.2.0" = 0 ∧
    updateDecision false "1.2.0" "1.2.0" = .noUpdate ∧
    compareVersions "1.2.0" "1.3.0" = -1 ∧
    updateDecision false "1.2.0" "1.3.0" = .performUpdate ∧
    compareVersions "1.3.1" "1.3.0" = 1 ∧
    updateDecision false "1.3.1" "1.3.0" = .warnNewer := by
  decide

/-- C10: the update command's version comparison treats missing numeric
components as zero: zero padding on either side leaves the comparison
equal for every component list, and concretely "1.2" compares equal to
"1.2.0" in both orders and less than "1.2.1". -/
theorem claim_C10_missing_components_are_zero :
    (∀ (p : List Int) (k : Nat),
      cmpParts p (p ++ List.replicate k 0) = 0) ∧
    (∀ (p : List Int) (k : Nat),
      cmpParts (p ++ List.replicate k 0) p = 0) ∧
    compareVersions "1.2" "1.2.0" = 0 ∧
    compareVersions "1.2.0" "1.2" = 0 ∧
    compareVersions "1.2" "1.2.1" = -1 := by
  refine ⟨cmpParts_pad_right, cmpParts_pad_left, by decide, by decide, by decide⟩

/-- C7: saving a list of records stores the object whose clusters field is
exactly their array, loading returns that array unchanged, reading the
fields of each stored object recovers the record with identical field
values, and loading a file without a clusters field yields the empty
array.  The pretty-printing serialisation between save and load is the
external JSON.stringify / JSON.parse builtin pair, modelled as exact
inverses at the value level. -/
theorem claim_C7_save_load_roundtrip :
    (∀ records : List ClusterConfig,
      loadClusters (saveClusters records) =
        .arr (records.map encodeCluster)) ∧
    (∀ c : ClusterConfig, decodeCluster (encodeCluster c) = some c) ∧
    loadClusters (.obj []) = .arr [] := by
  refine ⟨fun records => rfl, fun c => ?_, rfl⟩
  cases c with
  | gcp n r cn p a => cases a <;> rfl
  | aws n r cn p ra => cases p <;> cases ra <;> rfl
  | azure n r cn rg s => cases s <;> rfl

/-- The empty pattern occurs in every string. -/
theorem strContainsB_empty_pat (s : String) : strContainsB s "" = true := by
  rw [strContainsB_eq_true_iff]
  exact List.nil_infix

/-- A member of a list whose comma join is empty is itself empty. -/
theorem joinComma_eq_empty_mem (l : List String) (x : String) (hx : x ∈ l)
    (hj : joinComma l = "") : x = "" := by
  have h := joinComma_contains l x hx
  rw [hj, strContainsB_eq_true_iff] at h
  have hd : x.data = [] := List.infix_nil.mp h
  cases x
  simp_all

/-- Sample records and options used by the concrete witnesses below. -/
def sampleGcp : ClusterConfig := .gcp "prod" "us-central1" "main" "proj-1" none

/-- A second sample record with a different name. -/
def sampleAws : ClusterConfig := .aws "edge" "eu-west-1" "edge-cluster" none none

/-- Add options whose requested name collides with sampleGcp. -/
def sampleAddDup : AddOptions :=
  ⟨"prod", "eu-west-1", "other", none, none, none, none, none, none⟩

/-- C1: when the requested name equals the name of a record already in the
store, addCommand throws (so saveClusters is never reached) and the stored
list is unchanged. -/
theorem claim_C1_duplicate_add_rejected :
    ∀ (clusters : List ClusterConfig) (provider : Provider)
      (opts : AddOptions) (c : ClusterConfig),
      c ∈ clusters → c.name = opts.name →
      (∃ e, addCommand clusters provider opts = .error e) ∧
      storeAfterAdd clusters provider opts = clusters := by
  intro clusters provider opts c hc hname
  have hany : clusters.any (fun c => c.name == opts.name) = true :=
    List.any_eq_true.mpr ⟨c, hc, by simp [hname]⟩
  have heq : addCommand clusters provider opts =
      .error ("Cluster \"" ++ opts.name ++
        "\" already exists. Remove it first or choose a different name.") := by
    simp [addCommand, hany]
  exact ⟨⟨_, heq⟩, by simp [storeAfterAdd, heq]⟩

/-- Witness for C1 at a concrete store and duplicate add invocation. -/
theorem claim_C1_witness :
    (∃ e, addCommand [sampleGcp] .aws sampleAddDup = .error e) ∧
    storeAfterAdd [sampleGcp] .aws sampleAddDup = [sampleGcp] :=
  claim_C1_duplicate_add_rejected [sampleGcp] .aws sampleAddDup sampleGcp
    (List.mem_singleton.mpr rfl) rfl

/-- C8: removing a name that matches no stored record throws a not-found
error whose text mentions every known name (and "(none configured)" when
the store is empty), and the config file bytes are exactly what they were
before the call, whatever serialisation the save path would have used. -/
theorem claim_C8_remove_missing_name :
    ∀ (clusters : List ClusterConfig) (name : String),
      (∀ c ∈ clusters, c.name ≠ name) →
      ∃ m, removeCommand clusters name = .error m ∧
        (∀ c ∈ clusters, strContainsB m c.name = true) ∧
        (clusters = [] → strContainsB m "(none configured)" = true) ∧
        (∀ (render : List ClusterConfig → String) (file : String),
          fileAfterRemove render (some file) clusters name = file) := by
  intro clusters name h
  have hfind : clusters.findIdx? (fun c => c.name == name) = none :=
    List.findIdx?_eq_none_iff.mpr (fun c hc => by simp [h c hc])
  have heq : removeCommand clusters name =
      .error ("Cluster \"" ++ name ++ "\" not found. Available: " ++
        (if joinComma (clusters.map ClusterConfig.name) == "" then
          "(none configured)"
         else joinComma (clusters.map ClusterConfig.name))) := by
    simp [removeCommand, hfind]
  refine ⟨_, heq, ?_, ?_, ?_⟩
  · intro c hc
    by_cases hj : joinComma (clusters.map ClusterConfig.name) = ""
    · have hcname : c.name = "" :=
        joinComma_eq_empty_mem _ c.name (List.mem_map_of_mem _ hc) hj
      rw [hcname]
      exact strContainsB_empty_pat _
    · rw [if_neg (by simpa using hj)]
      exact strContainsB_append_right _ _ _
        (joinComma_contains _ c.name (List.mem_map_of_mem _ hc))
  · intro hempty
    subst hempty
    rw [if_pos (by rfl)]
    rw [strContainsB_eq_true_iff, String.data_append]
    exact (List.suffix_append _ _).isInfix
  · intro render file
    simp [fileAfterRemove, heq, ensureConfigFile]

/-- Witness for C8 at a concrete one-record store and an absent name. -/
theorem claim_C8_witness :
    ∃ m, removeCommand [sampleGcp] "ghost" = .error m ∧
      (∀ c ∈ [sampleGcp], strContainsB m c.name = true) ∧
      ([sampleGcp] = ([] : List ClusterConfig) →
        strContainsB m "(none configured)" = true) ∧
      (∀ (render : List ClusterConfig → String) (file : String),
        fileAfterRemove render (some file) [sampleGcp] "ghost" = file) :=
  claim_C8_remove_missing_name [sampleGcp] "ghost" (by decide)

/-- C2: every provider's status probe is a total function into
ProviderStatus (the source wraps all subprocess work in try/catch, so it
never throws); when the identity query exits nonzero or its captured
stdout trims to empty, the result is unauthenticated; and when spawning
the provider CLI itself throws (CLI not installed), the result is
unauthenticated with an explanatory details string. -/
theorem claim_C2_status_probe_failures :
    (∀ (r : CommandResult) (follow : Except Unit CommandResult)
       (env : Option String),
      r.exitCode ≠ 0 ∨ jsTrim r.stdout = "" →
      (statusGcp (.ok r) follow).isAuthenticated = false ∧
      (statusAws (.ok r) env).isAuthenticated = false ∧
      (statusAzure (.ok r) follow).isAuthenticated = false) ∧
    (∀ (follow : Except Unit CommandResult) (env : Option String),
      statusGcp (.error ()) follow =
        ⟨.gcp, false, none, some "gcloud not installed"⟩ ∧
      statusAws (.error ()) env =
        ⟨.aws, false, none, some "aws CLI not installed"⟩ ∧
      statusAzure (.error ()) follow =
        ⟨.azure, false, none, some "az CLI not installed"⟩) := by
  constructor
  · intro r follow env h
    have hc : r.exitCode ≠ 0 ∨ (jsTrim r.stdout == "") = true := by
      rcases h with h | h
      · exact Or.inl h
      · exact Or.inr (by simp [h])
    refine ⟨?_, ?_, ?_⟩
    · show (if r.exitCode ≠ 0 ∨ jsTrim r.stdout == "" then
          (⟨.gcp, false, none, none⟩ : ProviderStatus)
        else _).isAuthenticated = false
      rw [if_pos hc]
    · show (if r.exitCode ≠ 0 ∨ jsTrim r.stdout == "" then
          (⟨.aws, false, none, none⟩ : ProviderStatus)
        else _).isAuthenticated = false
      rw [if_pos hc]
    · show (if r.exitCode ≠ 0 ∨ jsTrim r.stdout == "" then
          (⟨.azure, false, none, none⟩ : ProviderStatus)
        else _).isAuthenticated = false
      rw [if_pos hc]
  · intro follow env
    exact ⟨rfl, rfl, rfl⟩

/-- Witness for C2 at a failing identity query (exit 1, empty stdout) and a
spawn failure. -/
theorem claim_C2_witness :
    ((statusGcp (.ok ⟨1, "", ""⟩) (.ok ⟨0, "p", ""⟩)).isAuthenticated = false ∧
     (statusAws (.ok ⟨1, "", ""⟩) none).isAuthenticated = false ∧
     (statusAzure (.ok ⟨1, "", ""⟩) (.ok ⟨0, "p", ""⟩)).isAuthenticated =
       false) ∧
    statusGcp (.error ()) (.ok ⟨0, "p", ""⟩) =
      ⟨.gcp, false, none, some "gcloud not installed"⟩ ∧
    statusAws (.error ()) none =
      ⟨.aws, false, none, some "aws CLI not installed"⟩ ∧
    statusAzure (.error ()) (.ok ⟨0, "p", ""⟩) =
      ⟨.azure, false, none, some "az CLI not installed"⟩ :=
  ⟨claim_C2_status_probe_failures.1 ⟨1, "", ""⟩ (.ok ⟨0, "p", ""⟩) none
      (Or.inl (by decide)),
   claim_C2_status_probe_failures.2 (.ok ⟨0, "p", ""⟩) none⟩

/-- C4 counterexample: the stderr text beginning with a newline matches none
of the listed AWS patterns, the first line of the raw stderr is the empty
line before that newline, yet parseAwsError returns the line after it (the
first line of the trimmed stderr), so the fall-through message is not the
first line of the raw stderr. -/
theorem claim_C4_counterexample :
    awsMatchesAny "\nreal failure detail" = false ∧
    parseAwsError "\nreal failure detail" =
      ⟨"real failure detail", none, none⟩ ∧
    firstLineRawSpec "\nreal failure detail" = "" ∧
    parseAwsError "\nreal failure detail" ≠
      ⟨firstLineRawSpec "\nreal failure detail", none, none⟩ := by
  exact ⟨by decide, by decide, by rfl, by decide⟩

/-- C4 amended: stderr whose lowercase form contains the expired-SSO phrase
classifies to a message mentioning "SSO session expired" with a hint
containing "aws sso login"; and stderr matching none of the listed AWS
patterns falls through to the first line of the trimmed stderr (or
"Unknown error" when that trims to nothing) as the message, with no hint. -/
theorem claim_C4_amended_aws_classifier :
    (∀ s : String,
      strContainsB (lowerStr s)
        "the sso session associated with this profile has expired" = true →
      strContainsB (parseAwsError s).message "SSO session expired" = true ∧
      ∃ h, (parseAwsError s).hint = some h ∧
        strContainsB h "aws sso login" = true) ∧
    (∀ s : String, awsMatchesAny s = false →
      parseAwsError s = ⟨extractFirstLine s, none, none⟩) := by
  constructor
  · intro s hs
    have hsso : awsSsoPat (lowerStr s) = true := by
      rw [awsSsoPat, hs]
      rfl
    have heq : parseAwsError s =
        ⟨"AWS SSO session expired",
         some "Run: aws sso login --profile PROFILE_NAME", some true⟩ := by
      rw [parseAwsError]
      simp only [hsso, if_true]
    rw [heq]
    exact ⟨by decide, "Run: aws sso login --profile PROFILE_NAME", rfl,
      by decide⟩
  · intro s hs
    rw [awsMatchesAny] at hs
    simp only [Bool.or_eq_false_iff] at hs
    obtain ⟨⟨⟨h1, h2⟩, h3⟩, h4⟩ := hs
    rw [parseAwsError]
    simp [h1, h2, h3, h4]

/-- Witness for C4 amended at a concrete SSO-expiry stderr (mixed case, so
the lowercasing is exercised) and a concrete unmatched stderr. -/
theorem claim_C4_witness :
    (strContainsB
      (parseAwsError
        "Error: The SSO session associated with this profile has expired").message
      "SSO session expired" = true ∧
     ∃ h, (parseAwsError
        "Error: The SSO session associated with this profile has expired").hint =
          some h ∧
       strContainsB h "aws sso login" = true) ∧
    parseAwsError "connection reset by peer\nwhile calling sts" =
      ⟨extractFirstLine "connection reset by peer\nwhile calling sts",
       none, none⟩ :=
  ⟨claim_C4_amended_aws_classifier.1
      "Error: The SSO session associated with this profile has expired"
      (by decide),
   claim_C4_amended_aws_classifier.2
      "connection reset by peer\nwhile calling sts" (by decide)⟩

/-- C3 counterexample: with az acr login exiting 1 while its (inherited,
never captured) raw stderr reads "unauthorized: authentication required",
the registry command's Azure path completes without raising (loginAzure
catches the failure and returns false), and the error registryAzure itself
raises carries only the exit code, not that stderr text. -/
theorem claim_C3_counterexample :
    registryCommandAzure (some "myregistry") 1 = .ok false ∧
    registryAzure "myregistry" 1 = .error "ACR login failed (exit 1)" ∧
    strContainsB "ACR login failed (exit 1)"
      "unauthorized: authentication required" = false := by
  exact ⟨rfl, rfl, by decide⟩

/-- C3 amended: each direct registry login operation raises on any step
failure; the error carries the captured stderr for the silent AWS steps
(token fetch, account-id resolution), while the interactive steps have no
captured stderr, so GCP's error is the fixed message with the empty
captured stderr appended and the Azure and AWS docker-login errors carry
the exit code; and the Azure path reached through the registry command
catches the failure and returns normally instead of raising. -/
theorem claim_C3_amended_registry_failures :
    (∀ (region project : String) (e : Nat), e ≠ 0 →
      registryGcp region project e = .error "Registry login failed:\n") ∧
    (∀ (name : String) (e : Nat), e ≠ 0 →
      registryAzure name e =
        .error ("ACR login failed (exit " ++ toString e ++ ")")) ∧
    (∀ (tok idr : CommandResult) (d : Nat), tok.exitCode ≠ 0 →
      registryAws tok idr d =
        .error ("Failed to get ECR token: " ++ tok.stderr)) ∧
    (∀ (tok idr : CommandResult) (d : Nat),
      tok.exitCode = 0 → idr.exitCode ≠ 0 →
      registryAws tok idr d =
        .error ("Failed to resolve AWS account ID: " ++ idr.stderr)) ∧
    (∀ (tok idr : CommandResult) (d : Nat),
      tok.exitCode = 0 → idr.exitCode = 0 → d ≠ 0 →
      registryAws tok idr d =
        .error ("Docker login to ECR failed (exit " ++ toString d ++ ")")) ∧
    (∀ (name : String) (e : Nat),
      registryCommandAzure (some name) e = .ok (e == 0)) := by
  refine ⟨?_, ?_, ?_, ?_, ?_, ?_⟩
  · intro region project e he
    simp [registryGcp, runCommandRes, he]
  · intro name e he
    simp [registryAzure, runCommandRes, he]
  · intro tok idr d ht
    rw [registryAws, if_pos ht]
  · intro tok idr d ht hi
    rw [registryAws, if_neg (by simp [ht]), if_pos hi]
  · intro tok idr d ht hi hd
    rw [registryAws, if_neg (by simp [ht]), if_neg (by simp [hi]), if_pos hd]
  · intro name e
    by_cases he : e = 0
    · subst he
      rfl
    · simp [registryCommandAzure, loginAzureViaRegistry, registryAzure,
        runCommandRes, he]

/-- Witness for C3 amended at concrete failing steps for each provider and
for the registry command's Azure path. -/
theorem claim_C3_witness :
    registryGcp "us-central1" "proj-1" 1 = .error "Registry login failed:\n" ∧
    registryAzure "myreg" 2 = .error "ACR login failed (exit 2)" ∧
    registryAws ⟨1, "", "token fetch denied"⟩ ⟨0, "", ""⟩ 0 =
      .error "Failed to get ECR token: token fetch denied" ∧
    registryAws ⟨0, "tok", ""⟩ ⟨1, "", "no identity"⟩ 0 =
      .error "Failed to resolve AWS account ID: no identity" ∧
    registryAws ⟨0, "tok", ""⟩ ⟨0, "123", ""⟩ 5 =
      .error "Docker login to ECR failed (exit 5)" ∧
    registryCommandAzure (some "myreg") 3 = .ok false :=
  ⟨claim_C3_amended_registry_failures.1 "us-central1" "proj-1" 1 (by decide),
   claim_C3_amended_registry_failures.2.1 "myreg" 2 (by decide),
   claim_C3_amended_registry_failures.2.2.1 ⟨1, "", "token fetch denied"⟩
     ⟨0, "", ""⟩ 0 (by decide),
   claim_C3_amended_registry_failures.2.2.2.1 ⟨0, "tok", ""⟩
     ⟨1, "", "no identity"⟩ 0 (by decide) (by decide),
   claim_C3_amended_registry_failures.2.2.2.2.1 ⟨0, "tok", ""⟩
     ⟨0, "123", ""⟩ 5 (by decide) (by decide) (by decide),
   claim_C3_amended_registry_failures.2.2.2.2.2 "myreg" 3⟩

/-- Names collected into toAdd by the merge loop were not known when the
loop started. -/
theorem importLoop_toAdd_not_known (ns : List String)
    (recs : List ClusterConfig) (n : String)
    (hn : n ∈ (importLoop ns recs).1.map ClusterConfig.name) : n ∉ ns := by
  induction recs generalizing ns with
  | nil => cases hn
  | cons c rest ih =>
    by_cases hmem : c.name ∈ ns
    · rw [importLoop, if_pos hmem] at hn
      exact ih ns hn
    · rw [importLoop, if_neg hmem, List.map_cons, List.mem_cons] at hn
      rcases hn with rfl | hn
      · exact hmem
      · intro hns
        exact ih (c.name :: ns) hn (List.mem_cons_of_mem _ hns)

/-- The names collected into toAdd by the merge loop are pairwise
distinct. -/
theorem importLoop_toAdd_nodup (ns : List String)
    (recs : List ClusterConfig) :
    ((importLoop ns recs).1.map ClusterConfig.name).Nodup := by
  induction recs generalizing ns with
  | nil => simp [importLoop]
  | cons c rest ih =>
    by_cases hmem : c.name ∈ ns
    · rw [importLoop, if_pos hmem]
      exact ih ns
    · rw [importLoop, if_neg hmem, List.map_cons, List.nodup_cons]
      refine ⟨fun hc => ?_, ih (c.name :: ns)⟩
      exact importLoop_toAdd_not_known (c.name :: ns) rest c.name hc
        (List.mem_cons_self _ _)

/-- Every occurrence of an initially-known name is reported as skipped by
the merge loop. -/
theorem importLoop_skip_count (n : String) (ns : List String)
    (recs : List ClusterConfig) (hn : n ∈ ns) :
    ((importLoop ns recs).2).count n =
      ((recs.map ClusterConfig.name).count n) := by
  induction recs generalizing ns with
  | nil => rfl
  | cons c rest ih =>
    by_cases hmem : c.name ∈ ns
    · rw [importLoop, if_pos hmem, List.map_cons, List.count_cons,
        List.count_cons, ih ns hn]
    · have hne : c.name ≠ n := fun hcn => hmem (hcn ▸ hn)
      rw [importLoop, if_neg hmem, List.map_cons, List.count_cons,
        ih (c.name :: ns) (List.mem_cons_of_mem _ hn)]
      simp [hne]

/-- When the names inside the import file are pairwise distinct, the merge
loop splits the validated records by membership of the initially known
names. -/
theorem importLoop_eq_filters (ns : List String)
    (recs : List ClusterConfig)
    (h : (recs.map ClusterConfig.name).Nodup) :
    importLoop ns recs =
      (recs.filter (fun c => decide (c.name ∉ ns)),
       (recs.filter (fun c => decide (c.name ∈ ns))).map
         ClusterConfig.name) := by
  induction recs generalizing ns with
  | nil => rfl
  | cons c rest ih =>
    rw [List.map_cons, List.nodup_cons] at h
    obtain ⟨hnot, hrest⟩ := h
    have hothers : ∀ d ∈ rest, d.name ≠ c.name := by
      intro d hd hdc
      exact hnot (hdc ▸ List.mem_map_of_mem ClusterConfig.name hd)
    by_cases hmem : c.name ∈ ns
    · rw [importLoop, if_pos hmem, ih ns hrest, List.filter_cons,
        List.filter_cons]
      simp [hmem]
    · have hfilta : rest.filter (fun d => decide (d.name ∉ c.name :: ns)) =
          rest.filter (fun d => decide (d.name ∉ ns)) := by
        refine List.filter_congr fun d hd => ?_
        simp [List.mem_cons, hothers d hd]
      have hfiltb : rest.filter (fun d => decide (d.name ∈ c.name :: ns)) =
          rest.filter (fun d => decide (d.name ∈ ns)) := by
        refine List.filter_congr fun d hd => ?_
        simp [List.mem_cons, hothers d hd]
      rw [importLoop, if_neg hmem, ih (c.name :: ns) hrest, hfilta, hfiltb,
        List.filter_cons, List.filter_cons]
      simp [hmem]

/-- Unfolding of importCommand once the parse and validation stages have
succeeded. -/
theorem importCommand_eq (data : JsonVal) (existing : List ClusterConfig)
    (entries : List JsonVal) (recs : List ClusterConfig)
    (h1 : parseEntries data = .ok entries)
    (h2 : validateAll entries 0 = .ok recs) :
    importCommand data existing =
      .ok (existing ++ (importLoop (existing.map ClusterConfig.name) recs).1,
           (importLoop (existing.map ClusterConfig.name) recs).2) := by
  rw [importCommand]
  rw [h1]
  show (validateAll entries 0).bind _ = _
  rw [h2]
  rfl

/-- A valid GCP import entry named alpha. -/
def entryAlpha : JsonVal :=
  .obj [("name", .str "alpha"), ("provider", .str "gcp"),
        ("region", .str "us"), ("clusterName", .str "main"),
        ("project", .str "p1")]

/-- The record entryAlpha validates to. -/
def recAlpha : ClusterConfig := .gcp "alpha" "us" "main" "p1" none

/-- An import file holding the same valid entry twice. -/
def dupImportFile : JsonVal := .obj [("clusters", .arr [entryAlpha, entryAlpha])]

/-- C5 counterexample: on an empty store and an import file holding two
valid records that both carry the fresh name alpha, both records count as
records whose name is not in the store (N = 2) and none as duplicates of
the store (M = 0), yet the import adds only one record and reports one
skipped name, so the stored count does not increase by N and the skipped
report is not the M store-duplicate names. -/
theorem claim_C5_counterexample :
    parseEntries dupImportFile = .ok [entryAlpha, entryAlpha] ∧
    validateAll [entryAlpha, entryAlpha] 0 = .ok [recAlpha, recAlpha] ∧
    ([recAlpha, recAlpha].filter
      (fun c => decide
        (c.name ∉ ([] : List ClusterConfig).map ClusterConfig.name))).length
      = 2 ∧
    importCommand dupImportFile [] = .ok ([recAlpha], ["alpha"]) ∧
    ([recAlpha].length = ([] : List ClusterConfig).length + 1) ∧
    (1 : Nat) ≠ 2 :=
  ⟨rfl, rfl, by decide, rfl, rfl, by decide⟩

/-- C5 amended: for a valid import file whose record names are pairwise
distinct, the import keeps the existing records as a prefix, grows the
store by exactly the number of file records whose name is not already
stored, and reports as skipped exactly the names of the file records whose
name is already stored. -/
theorem claim_C5_amended_import_merge :
    ∀ (existing : List ClusterConfig) (data : JsonVal)
      (entries : List JsonVal) (recs : List ClusterConfig),
      parseEntries data = .ok entries →
      validateAll entries 0 = .ok recs →
      (recs.map ClusterConfig.name).Nodup →
      ∃ newStore skipped,
        importCommand data existing = .ok (newStore, skipped) ∧
        newStore.take existing.length = existing ∧
        newStore.length = existing.length +
          (recs.filter (fun c =>
            decide (c.name ∉ existing.map ClusterConfig.name))).length ∧
        skipped = (recs.filter (fun c =>
          decide (c.name ∈ existing.map ClusterConfig.name))).map
            ClusterConfig.name := by
  intro existing data entries recs h1 h2 hnd
  have hcmd := importCommand_eq data existing entries recs h1 h2
  have hloop := importLoop_eq_filters (existing.map ClusterConfig.name) recs hnd
  refine ⟨_, _, hcmd, List.take_left existing _, ?_, ?_⟩
  · rw [hloop, List.length_append]
  · rw [hloop]

/-- A valid AWS import entry named edge, duplicating sampleAws. -/
def entryEdge : JsonVal :=
  .obj [("name", .str "edge"), ("provider", .str "aws"),
        ("region", .str "eu-west-1"), ("clusterName", .str "e1")]

/-- An import file with one fresh record (alpha) and one record whose name
is already stored (edge). -/
def mixImportFile : JsonVal := .obj [("clusters", .arr [entryAlpha, entryEdge])]

/-- Witness for C5 amended at a one-record store and a two-record file with
one fresh and one duplicate name. -/
theorem claim_C5_witness :
    ∃ newStore skipped,
      importCommand mixImportFile [sampleAws] = .ok (newStore, skipped) ∧
      newStore.take [sampleAws].length = [sampleAws] ∧
      newStore.length = [sampleAws].length +
        ([recAlpha, .aws "edge" "eu-west-1" "e1" none none].filter (fun c =>
          decide (c.name ∉ [sampleAws].map ClusterConfig.name))).length ∧
      skipped = ([recAlpha, .aws "edge" "eu-west-1" "e1" none none].filter
        (fun c =>
          decide (c.name ∈ [sampleAws].map ClusterConfig.name))).map
            ClusterConfig.name :=
  claim_C5_amended_import_merge [sampleAws] mixImportFile
    [entryAlpha, entryEdge] [recAlpha, .aws "edge" "eu-west-1" "e1" none none]
    rfl rfl (by decide)

/-- C9: importCommand reduces to the merge loop on the validated records;
when the head record's name is new, the loop appends that first occurrence
and no later record with the same name, while every later occurrence of
the name is reported as skipped; and the merge preserves distinctness of
the stored names. -/
theorem claim_C9_import_file_dedup :
    (∀ (data : JsonVal) (existing : List ClusterConfig)
       (entries : List JsonVal) (recs : List ClusterConfig),
      parseEntries data = .ok entries →
      validateAll entries 0 = .ok recs →
      importCommand data existing =
        .ok (existing ++
               (importLoop (existing.map ClusterConfig.name) recs).1,
             (importLoop (existing.map ClusterConfig.name) recs).2)) ∧
    (∀ (existing : List ClusterConfig) (c : ClusterConfig)
       (rest : List ClusterConfig),
      c.name ∉ existing.map ClusterConfig.name →
      ∃ toAddTail skipped,
        importLoop (existing.map ClusterConfig.name) (c :: rest) =
          (c :: toAddTail, skipped) ∧
        (∀ d ∈ toAddTail, d.name ≠ c.name) ∧
        skipped.count c.name = (rest.map ClusterConfig.name).count c.name) ∧
    (∀ (existing recs : List ClusterConfig),
      (existing.map ClusterConfig.name).Nodup →
      ((existing ++
        (importLoop (existing.map ClusterConfig.name) recs).1).map
          ClusterConfig.name).Nodup) := by
  refine ⟨importCommand_eq, ?_, ?_⟩
  · intro existing c rest hnot
    refine ⟨(importLoop (c.name :: existing.map ClusterConfig.name) rest).1,
            (importLoop (c.name :: existing.map ClusterConfig.name) rest).2,
            by rw [importLoop, if_neg hnot], ?_, ?_⟩
    · intro d hd hdc
      exact importLoop_toAdd_not_known _ rest d.name
        (List.mem_map_of_mem ClusterConfig.name hd)
        (hdc ▸ List.mem_cons_self _ _)
    · exact importLoop_skip_count c.name _ rest (List.mem_cons_self _ _)
  · intro existing recs hnd
    rw [List.map_append]
    exact hnd.append (importLoop_toAdd_nodup _ recs)
      (fun n hn hn2 => importLoop_toAdd_not_known _ recs n hn2 hn)

/-- Witness for C9 at the duplicate import file on an empty store and at a
store whose names are distinct. -/
theorem claim_C9_witness :
    importCommand dupImportFile [] =
      .ok ([] ++ (importLoop (([] : List ClusterConfig).map
             ClusterConfig.name) [recAlpha, recAlpha]).1,
           (importLoop (([] : List ClusterConfig).map ClusterConfig.name)
             [recAlpha, recAlpha]).2) ∧
    (∃ toAddTail skipped,
      importLoop ([sampleAws].map ClusterConfig.name) [recAlpha, recAlpha] =
        (recAlpha :: toAddTail, skipped) ∧
      (∀ d ∈ toAddTail, d.name ≠ recAlpha.name) ∧
      skipped.count recAlpha.name =
        ([recAlpha].map ClusterConfig.name).count recAlpha.name) ∧
    (([sampleAws] ++
      (importLoop ([sampleAws].map ClusterConfig.name)
        [recAlpha, recAlpha]).1).map ClusterConfig.name).Nodup :=
  ⟨claim_C9_import_file_dedup.1 dupImportFile [] [entryAlpha, entryAlpha]
      [recAlpha, recAlpha] rfl rfl,
   claim_C9_import_file_dedup.2.1 [sampleAws] recAlpha [recAlpha] (by decide),
   claim_C9_import_file_dedup.2.2 [sampleAws] [recAlpha, recAlpha] (by decide)⟩
